import Mathlib

/-!
Verification of the match-derived analytics core of the goalline API
(`app/routes/analytics.py`): score extraction, standings builder,
leaderboard builder, streak analyzer and head-to-head summarizer.

Python/Mongo documents are embedded as `PyVal`, a JSON-like value
universe covering the shapes the data model uses (null, integers,
strings, arrays, string-keyed objects).  Fallible Python code
(expressions that can raise) is embedded in `Except PyExc`.
-/

namespace Goalline

/-- A Python/JSON value as stored in Mongo documents: null, int, string,
array, or string-keyed object.  (Floats and booleans do not occur in the
data model of the spec and are not needed by any claim.) -/
inductive PyVal where
  | none
  | int (n : Int)
  | str (s : String)
  | list (xs : List PyVal)
  | dict (kvs : List (String × PyVal))

mutual
/-- Structural equality on `PyVal`, embedding Python `==` on these values. -/
def PyVal.beq : PyVal → PyVal → Bool
  | .none, .none => true
  | .int a, .int b => a == b
  | .str a, .str b => a == b
  | .list xs, .list ys => PyVal.beqList xs ys
  | .dict xs, .dict ys => PyVal.beqKvs xs ys
  | _, _ => false

def PyVal.beqList : List PyVal → List PyVal → Bool
  | [], [] => true
  | x :: xs, y :: ys => PyVal.beq x y && PyVal.beqList xs ys
  | _, _ => false

def PyVal.beqKvs : List (String × PyVal) → List (String × PyVal) → Bool
  | [], [] => true
  | (k, v) :: xs, (k2, v2) :: ys => k == k2 && PyVal.beq v v2 && PyVal.beqKvs xs ys
  | _, _ => false
end

mutual
theorem PyVal.beq_iff : ∀ a b : PyVal, PyVal.beq a b = true ↔ a = b
  | .none, .none => by simp [PyVal.beq]
  | .none, .int _ | .none, .str _ | .none, .list _ | .none, .dict _ => by simp [PyVal.beq]
  | .int _, .none | .int _, .str _ | .int _, .list _ | .int _, .dict _ => by simp [PyVal.beq]
  | .str _, .none | .str _, .int _ | .str _, .list _ | .str _, .dict _ => by simp [PyVal.beq]
  | .list _, .none | .list _, .int _ | .list _, .str _ | .list _, .dict _ => by simp [PyVal.beq]
  | .dict _, .none | .dict _, .int _ | .dict _, .str _ | .dict _, .list _ => by simp [PyVal.beq]
  | .int a, .int b => by simp [PyVal.beq]
  | .str a, .str b => by simp [PyVal.beq]
  | .list xs, .list ys => by
      simp only [PyVal.beq, PyVal.beqList_iff xs ys, PyVal.list.injEq]
  | .dict xs, .dict ys => by
      simp only [PyVal.beq, PyVal.beqKvs_iff xs ys, PyVal.dict.injEq]

theorem PyVal.beqList_iff : ∀ xs ys : List PyVal, PyVal.beqList xs ys = true ↔ xs = ys
  | [], [] => by simp [PyVal.beqList]
  | [], _ :: _ => by simp [PyVal.beqList]
  | _ :: _, [] => by simp [PyVal.beqList]
  | x :: xs, y :: ys => by
      simp [PyVal.beqList, PyVal.beq_iff x y, PyVal.beqList_iff xs ys]

theorem PyVal.beqKvs_iff :
    ∀ xs ys : List (String × PyVal), PyVal.beqKvs xs ys = true ↔ xs = ys
  | [], [] => by simp [PyVal.beqKvs]
  | [], _ :: _ => by simp [PyVal.beqKvs]
  | _ :: _, [] => by simp [PyVal.beqKvs]
  | (k, v) :: xs, (k2, v2) :: ys => by
      simp [PyVal.beqKvs, PyVal.beq_iff v v2, PyVal.beqKvs_iff xs ys, and_assoc]
end

instance : BEq PyVal := ⟨PyVal.beq⟩

instance : LawfulBEq PyVal where
  eq_of_beq h := (PyVal.beq_iff _ _).mp h
  rfl := (PyVal.beq_iff _ _).mpr rfl

instance : DecidableEq PyVal := fun a b =>
  decidable_of_iff (PyVal.beq a b = true) (PyVal.beq_iff a b)

/-- Python exceptions that the analytics code can raise. -/
inductive PyExc where
  | valueError
  | typeError
  | attributeError
  deriving DecidableEq

instance {ε α : Type} [DecidableEq ε] [DecidableEq α] : DecidableEq (Except ε α) := fun a b =>
  match a, b with
  | .ok x, .ok y => if h : x = y then isTrue (by simp [h]) else isFalse (by simp [h])
  | .error x, .error y => if h : x = y then isTrue (by simp [h]) else isFalse (by simp [h])
  | .ok _, .error _ => isFalse (by simp)
  | .error _, .ok _ => isFalse (by simp)

/-- A Mongo document: a Python dict with string keys. -/
abbrev Doc := List (String × PyVal)

/-- Python `doc.get(k, d)`: the value stored under the first occurrence of
key `k`, or the default `d` when the key is absent. -/
def pyGetD (doc : Doc) (k : String) (d : PyVal) : PyVal :=
  match doc.find? (fun p => p.1 == k) with
  | some p => p.2
  | Option.none => d

/-- Python `doc.get(k)`: defaults to `None`. -/
def pyGet (doc : Doc) (k : String) : PyVal :=
  pyGetD doc k .none

/-- Python truthiness of a value. -/
def pyTruthy : PyVal → Bool
  | .none => false
  | .int n => n != 0
  | .str s => s != ""
  | .list xs => !xs.isEmpty
  | .dict kvs => !kvs.isEmpty

/-- Python `a or b`. -/
def pyOr (a b : PyVal) : PyVal :=
  if pyTruthy a then a else b

/-- Value of a list of decimal digit characters. -/
def digitsToNat (cs : List Char) : Nat :=
  cs.foldl (fun n c => n * 10 + (c.toNat - '0'.toNat)) 0

/-- Python `int(s)` on a string: optional surrounding whitespace, an
optional sign, then a nonempty run of decimal digits; anything else
raises `ValueError`.  (Exotic accepted forms — underscore separators,
non-ASCII digits — do not occur in the modelled data.) -/
def pyStrInt? (s : String) : Option Int :=
  let cs := (((s.toList.dropWhile Char.isWhitespace).reverse.dropWhile
    Char.isWhitespace)).reverse
  match cs with
  | '+' :: ds =>
      if ds ≠ [] ∧ ds.all Char.isDigit then some (digitsToNat ds) else Option.none
  | '-' :: ds =>
      if ds ≠ [] ∧ ds.all Char.isDigit then some (-(digitsToNat ds : Int)) else Option.none
  | ds =>
      if ds ≠ [] ∧ ds.all Char.isDigit then some (digitsToNat ds) else Option.none

/-- Python `int(x)` on a value: identity on ints, string parsing on
strings, `TypeError` on `None`, lists and dicts. -/
def pyInt : PyVal → Except PyExc Int
  | .int n => .ok n
  | .str s =>
      match pyStrInt? s with
      | some n => .ok n
      | Option.none => .error .valueError
  | .none => .error .typeError
  | .list _ => .error .typeError
  | .dict _ => .error .typeError

/-- Python `s.split(sep)` for the single-character separator used here,
on a list of characters. -/
def splitDashAux : List Char → List Char → List (List Char)
  | [], acc => [acc.reverse]
  | c :: cs, acc =>
      if c = '-' then acc.reverse :: splitDashAux cs []
      else splitDashAux cs (c :: acc)

/-- Python `s.split("-")`. -/
def splitDash (s : String) : List String :=
  (splitDashAux s.toList []).map List.asString

/-- Embeds `parse_score` (analytics.py lines 188-200).  The value is the
pair returned; `.error` records an uncaught Python exception: the
`try/except` of the source only guards the string branch, so the `int`
coercions of the dict branch can raise. -/
def parse_score (score : PyVal) : Except PyExc (Int × Int) :=
  let fulltime : PyVal :=
    match score with
    | .dict kvs => pyGet kvs "fulltime"
    | _ => score
  match fulltime with
  | .dict kvs => do
      let home ← pyInt (pyOr (pyGetD kvs "home" (.int 0)) (.int 0))
      let away ← pyInt (pyOr (pyGetD kvs "away" (.int 0)) (.int 0))
      return (home, away)
  | .str s =>
      match splitDash s with
      | [hs, as_] =>
          match pyStrInt? hs, pyStrInt? as_ with
          | some h, some a => .ok (h, a)
          | _, _ => .ok (0, 0)
      | _ => .ok (0, 0)
  | _ => .ok (0, 0)

/-- Embeds `result_symbol` (analytics.py lines 203-208). -/
def result_symbol (goals_for goals_against : Int) : String :=
  if goals_for > goals_against then "W"
  else if goals_for < goals_against then "L"
  else "D"

/-- Embeds `longest_streak` (analytics.py lines 211-219): a left-to-right
scan carrying the pair (longest, current). -/
def longest_streak (sequence : List String) (target : String) : Nat :=
  (sequence.foldl
    (fun (lc : Nat × Nat) value =>
      if value == target then (max lc.1 (lc.2 + 1), lc.2 + 1) else (lc.1, 0))
    (0, 0)).1

/-- Embeds `serialize_match` (analytics.py lines 222-231). -/
def serialize_match (doc : Doc) : PyVal :=
  .dict
    [("_id", pyGet doc "_id"),
     ("date", pyGet doc "date"),
     ("competition_id", pyGet doc "competition_id"),
     ("season_id", pyGet doc "season_id"),
     ("home_team_id", pyGet doc "home_team_id"),
     ("away_team_id", pyGet doc "away_team_id"),
     ("score", pyGet doc "score")]

/-- Embeds the `TeamStanding` dataclass (analytics.py lines 15-30);
all six stored fields default to zero. -/
structure TeamStanding where
  played : Nat := 0
  wins : Nat := 0
  draws : Nat := 0
  losses : Nat := 0
  goals_for : Int := 0
  goals_against : Int := 0
  deriving DecidableEq

/-- The `goal_diff` computed property (analytics.py lines 24-26). -/
def TeamStanding.goal_diff (s : TeamStanding) : Int :=
  s.goals_for - s.goals_against

/-- The `points` computed property (analytics.py lines 28-30). -/
def TeamStanding.points (s : TeamStanding) : Nat :=
  s.wins * 3 + s.draws

/-- The zero-valued `TeamStanding()` a `defaultdict` creates. -/
def TeamStanding.zero : TeamStanding := ⟨0, 0, 0, 0, 0, 0⟩

/-- The `standings` accumulator: a `defaultdict(TeamStanding)` keyed by
team id, kept in insertion order like a Python dict. -/
abbrev Standings := List (PyVal × TeamStanding)

/-- A `defaultdict` read `standings[k]` as a state effect: inserts a
zero-valued record at the end on first access. -/
def dAccess (st : Standings) (k : PyVal) : Standings :=
  if st.any (fun p => p.1 == k) then st else st ++ [(k, TeamStanding.zero)]

/-- A mutation of the record object `standings[k]` (Python mutates the
shared object in place; here the entry under key `k` is updated). -/
def dModify (st : Standings) (k : PyVal) (f : TeamStanding → TeamStanding) : Standings :=
  st.map (fun p => if p.1 == k then (p.1, f p.2) else p)

/-- The per-match body of the `league_table` loop (analytics.py lines
52-68), statement by statement: the two `defaultdict` accesses, then each
`+=` in source order.  When `home = away` the two Python variables alias
one record, which this sequence of keyed updates reproduces. -/
def applyMatch (st : Standings) (home away : PyVal) (hg ag : Int) : Standings :=
  let st1 := dAccess st home
  let st2 := dAccess st1 away
  let st3 := dModify st2 home (fun r => { r with played := r.played + 1 })
  let st4 := dModify st3 away (fun r => { r with played := r.played + 1 })
  let st5 := dModify st4 home (fun r => { r with goals_for := r.goals_for + hg })
  let st6 := dModify st5 home (fun r => { r with goals_against := r.goals_against + ag })
  let st7 := dModify st6 away (fun r => { r with goals_for := r.goals_for + ag })
  let st8 := dModify st7 away (fun r => { r with goals_against := r.goals_against + hg })
  if hg > ag then
    dModify (dModify st8 home (fun r => { r with wins := r.wins + 1 }))
      away (fun r => { r with losses := r.losses + 1 })
  else if hg < ag then
    dModify (dModify st8 away (fun r => { r with wins := r.wins + 1 }))
      home (fun r => { r with losses := r.losses + 1 })
  else
    dModify (dModify st8 home (fun r => { r with draws := r.draws + 1 }))
      away (fun r => { r with draws := r.draws + 1 })

/-- The `for match in matches` loop of `league_table` (analytics.py lines
46-68).  Note the source calls `parse_score` before the missing-team-id
check, so a score on which `parse_score` raises aborts the whole loop
even for a match that would be skipped. -/
def tableLoop (st : Standings) : List Doc → Except PyExc Standings
  | [] => .ok st
  | m :: ms =>
      let home := pyGet m "home_team_id"
      let away := pyGet m "away_team_id"
      match parse_score (pyGetD m "score" (.dict [])) with
      | .error e => .error e
      | .ok (hg, ag) =>
          if home == PyVal.none || away == PyVal.none then tableLoop st ms
          else tableLoop (applyMatch st home away hg ag) ms

/-- One row of the serialized league table (analytics.py lines 70-83):
the dict literal built from a standing has these nine fields;
`goal_difference` and `points` are taken from the computed properties. -/
structure Row where
  team_id : PyVal
  played : Nat
  wins : Nat
  draws : Nat
  losses : Nat
  goals_for : Int
  goals_against : Int
  goal_difference : Int
  points : Nat
  deriving DecidableEq

/-- Builds the table row of one accumulated standing (analytics.py lines
71-82). -/
def mkRow (p : PyVal × TeamStanding) : Row :=
  { team_id := p.1
    played := p.2.played
    wins := p.2.wins
    draws := p.2.draws
    losses := p.2.losses
    goals_for := p.2.goals_for
    goals_against := p.2.goals_against
    goal_difference := p.2.goal_diff
    points := p.2.points }

/-- The sort key of `table.sort` (analytics.py line 84):
`(-points, -goal_difference, -goals_for)`. -/
def rowKey (r : Row) : Int × Int × Int :=
  (-(r.points : Int), -r.goal_difference, -r.goals_for)

/-- Lexicographic order on sort-key triples (Python tuple comparison),
in its reflexive/total form. -/
def keyLe (x y : Int × Int × Int) : Prop :=
  x.1 < y.1 ∨ (x.1 = y.1 ∧ (x.2.1 < y.2.1 ∨ (x.2.1 = y.2.1 ∧ x.2.2 ≤ y.2.2)))

instance : DecidableRel keyLe := fun x y => by
  unfold keyLe; infer_instance

/-- The comparison Python's stable `list.sort` uses on table rows. -/
def rowLe (a b : Row) : Prop := keyLe (rowKey a) (rowKey b)

instance : DecidableRel rowLe := fun a b => by
  unfold rowLe; infer_instance

instance : IsTotal Row rowLe where
  total a b := by
    unfold rowLe keyLe
    omega

instance : IsTrans Row rowLe where
  trans a b c hab hbc := by
    unfold rowLe keyLe at *
    omega

/-- Python's `list.sort` is a stable sort; `table.sort(key=...)`
(analytics.py line 84) is embedded as a stable insertion sort under the
key comparison. -/
def sortTable (rows : List Row) : List Row :=
  rows.insertionSort rowLe

/-- The league-table computation of the `/tables` handler (analytics.py
lines 40-86) after the query: accumulate standings over the scoped
matches, build rows, sort. -/
def league_tableRows (ms : List Doc) : Except PyExc (List Row) :=
  match tableLoop [] ms with
  | .error e => .error e
  | .ok st => .ok (sortTable (st.map mkRow))

/-- The spec's league-table example: match 1, TeamX 3-1 TeamY. -/
def exM1 : Doc :=
  [("home_team_id", .str "TeamX"), ("away_team_id", .str "TeamY"), ("score", .str "3-1")]

/-- The spec's league-table example: match 2, TeamY 2-2 TeamX. -/
def exM2 : Doc :=
  [("home_team_id", .str "TeamY"), ("away_team_id", .str "TeamX"), ("score", .str "2-2")]

example :
    league_tableRows [exM1, exM2] =
      .ok
        [{ team_id := .str "TeamX", played := 2, wins := 1, draws := 1, losses := 0,
           goals_for := 5, goals_against := 3, goal_difference := 2, points := 4 },
         { team_id := .str "TeamY", played := 2, wins := 0, draws := 1, losses := 1,
           goals_for := 3, goals_against := 5, goal_difference := -2, points := 1 }] := by
  decide

/-- An HTTP-level outcome of a handler: a JSON 200 body, an
`error_response(code, message, status)` (utils.py lines 42-51), or an
uncaught Python exception. -/
inductive Resp where
  | ok (body : PyVal)
  | err (code msg : String) (status : Nat)
  | exc (e : PyExc)
  deriving DecidableEq

/-- The `team_results` accumulator of `streaks`: a `defaultdict(list)`
keyed by team id, in insertion order. -/
abbrev TeamResults := List (PyVal × List String)

/-- `team_results[k].append(v)`: first access inserts an empty list at
the end, then the symbol is appended. -/
def dAppend (tr : TeamResults) (k : PyVal) (v : String) : TeamResults :=
  if tr.any (fun p => p.1 == k) then
    tr.map (fun p => if p.1 == k then (p.1, p.2 ++ [v]) else p)
  else tr ++ [(k, [v])]

/-- The `for match in matches` loop of `streaks` (analytics.py lines
145-156).  As in `league_table`, `parse_score` runs before the
missing-team-id check. -/
def streaksLoop (streak_type : String) (tr : TeamResults) :
    List Doc → Except PyExc TeamResults
  | [] => .ok tr
  | m :: ms =>
      let home := pyGet m "home_team_id"
      let away := pyGet m "away_team_id"
      match parse_score (pyGetD m "score" (.dict [])) with
      | .error e => .error e
      | .ok (hg, ag) =>
          if home == PyVal.none || away == PyVal.none then
            streaksLoop streak_type tr ms
          else if streak_type == "clean_sheet" then
            streaksLoop streak_type
              (dAppend (dAppend tr home (if ag == 0 then "C" else "N"))
                away (if hg == 0 then "C" else "N")) ms
          else
            streaksLoop streak_type
              (dAppend (dAppend tr home (result_symbol hg ag))
                away (result_symbol ag hg)) ms

/-- The comparison of `streaks_data.sort(key=..., reverse=True)`
(analytics.py line 164): descending by streak length. -/
def streakGe (a b : PyVal × Nat) : Prop := b.2 ≤ a.2

instance : DecidableRel streakGe := fun a b => by
  unfold streakGe; infer_instance

instance : IsTotal (PyVal × Nat) streakGe where
  total a b := by unfold streakGe; omega

instance : IsTrans (PyVal × Nat) streakGe where
  trans a b c hab hbc := by unfold streakGe at *; omega

/-- Embeds the `/streaks` handler (analytics.py lines 128-165).  The
`matches` argument stands for the scoped query result, already sorted
ascending by date (the sort is performed by the storage collaborator;
per the spec that ordering is its contract). -/
def streaks (streak_type : Option String) (ms : List Doc) : Resp :=
  if streak_type = some "win" ∨ streak_type = some "loss" ∨
      streak_type = some "clean_sheet" then
    let t := streak_type.getD ""
    match streaksLoop t [] ms with
    | .error e => .exc e
    | .ok tr =>
        let target := if t == "win" then "W" else if t == "loss" then "L" else "C"
        let sd := tr.map (fun p => (p.1, longest_streak p.2 target))
        let sd := sd.insertionSort streakGe
        .ok (.dict
          [("type", .str t),
           ("streaks", .list (sd.map (fun p =>
             .dict [("team_id", p.1), ("streak", .int (p.2 : Int))])))])
  else .err "VALIDATION_ERROR" "type must be win, loss, or clean_sheet" 422

/-- The `goal_counts` accumulator of `top_scorers`: a `defaultdict(int)`
keyed by player id, in insertion order. -/
abbrev GoalCounts := List (PyVal × Nat)

/-- `goal_counts[k] += 1`: a missing key starts at the default 0 and is
inserted at the end. -/
def bumpCount (gc : GoalCounts) (k : PyVal) : GoalCounts :=
  if gc.any (fun p => p.1 == k) then
    gc.map (fun p => if p.1 == k then (p.1, p.2 + 1) else p)
  else gc ++ [(k, 1)]

/-- Python iteration `for x in v`: lists yield elements, strings their
characters, dicts their keys; `None` and ints raise `TypeError`. -/
def pyIter : PyVal → Except PyExc (List PyVal)
  | .list xs => .ok xs
  | .str s => .ok (s.toList.map (fun c => .str (String.singleton c)))
  | .dict kvs => .ok (kvs.map (fun p => .str p.1))
  | .none => .error .typeError
  | .int _ => .error .typeError

/-- The inner `for event in match.get("events", [])` loop of
`top_scorers` (analytics.py lines 105-107): `event.get` on a non-dict
raises `AttributeError`. -/
def scanEvents (gc : GoalCounts) : List PyVal → Except PyExc GoalCounts
  | [] => .ok gc
  | e :: es =>
      match e with
      | .dict kvs =>
          if PyVal.beq (pyGet kvs "type") (.str "goal") &&
              pyTruthy (pyGet kvs "player_id") then
            scanEvents (bumpCount gc (pyGet kvs "player_id")) es
          else scanEvents gc es
      | _ => .error .attributeError

/-- The outer match loop of `top_scorers` (analytics.py lines 104-107). -/
def scorersLoop (gc : GoalCounts) : List Doc → Except PyExc GoalCounts
  | [] => .ok gc
  | m :: ms =>
      match pyIter (pyGetD m "events" (.list [])) with
      | .error e => .error e
      | .ok evs =>
          match scanEvents gc evs with
          | .error e => .error e
          | .ok gc2 => scorersLoop gc2 ms

/-- Python slice `l[:n]`, including the negative-`n` form. -/
def pySliceTo {α : Type} (l : List α) (n : Int) : List α :=
  if 0 ≤ n then l.take n.toNat else l.take (l.length - (-n).toNat)

/-- The comparison of `leaders.sort(key=lambda row: row["goals"],
reverse=True)` (analytics.py line 124) on (player_id, name, goals)
entries. -/
def leaderGe (a b : PyVal × PyVal × Nat) : Prop := b.2.2 ≤ a.2.2

instance : DecidableRel leaderGe := fun a b => by
  unfold leaderGe; infer_instance

instance : IsTotal (PyVal × PyVal × Nat) leaderGe where
  total a b := by unfold leaderGe; omega

instance : IsTrans (PyVal × PyVal × Nat) leaderGe where
  trans a b c hab hbc := by unfold leaderGe at *; omega

/-- Embeds the `/leaders/scorers` handler (analytics.py lines 89-125).
`playersFind` stands for the player-store batch lookup
`players_coll.find` keyed by the requested ids; when no goal was
counted the handler returns before any lookup, so the result cannot
depend on it.  Each leader entry is the (player_id, name, goals) content
of the dict literal of lines 116-123; the sort key and the slice match
lines 124-125. -/
def top_scorers (limit : Int) (ms : List Doc)
    (playersFind : List PyVal → List (PyVal × Doc)) : Resp :=
  match scorersLoop [] ms with
  | .error e => .exc e
  | .ok gc =>
      if gc.isEmpty then .ok (.dict [("leaders", .list [])])
      else
        let player_docs := playersFind (gc.map Prod.fst)
        let leaders := gc.map (fun p =>
          (p.1,
           pyGet (((player_docs.find? (fun q => q.1 == p.1)).map Prod.snd).getD []) "name",
           p.2))
        let sorted := leaders.insertionSort leaderGe
        .ok (.dict [("leaders", .list ((pySliceTo sorted limit).map (fun p =>
          .dict [("player_id", p.1), ("name", p.2.1), ("goals", .int (p.2.2 : Int))])))])

/-- The date sort key of a match document.  Modelled from the spec: the
data model declares `date` a timestamp, so the storage collaborator's
date ordering is embedded as the integer order on that field. -/
def dateKeyInt (d : Doc) : Int :=
  match pyGet d "date" with
  | .int n => n
  | _ => 0

/-- Descending-by-date comparison used by the head-to-head query sort. -/
def dateGe (a b : Doc) : Prop := dateKeyInt b ≤ dateKeyInt a

instance : DecidableRel dateGe := fun a b => by
  unfold dateGe; infer_instance

instance : IsTotal Doc dateGe where
  total a b := by unfold dateGe; omega

instance : IsTrans Doc dateGe where
  trans a b c hab hbc := by unfold dateGe at *; omega

/-- The Mongo filter built by `head_to_head` (analytics.py lines
177-182): an `$or` of the two ordered (home, away) equality pairs. -/
def h2hQuery (team_a team_b : String) (d : Doc) : Bool :=
  (pyGet d "home_team_id" == PyVal.str team_a &&
    pyGet d "away_team_id" == PyVal.str team_b) ||
  (pyGet d "home_team_id" == PyVal.str team_b &&
    pyGet d "away_team_id" == PyVal.str team_a)

/-- Modelled from the spec: the storage collaborator's
`find(query).sort(date desc).limit(limit)` pipeline over the matches
collection (the spec: select the matching documents, sort descending by
date, take the first `limit`). -/
def mongoH2h (docs : List Doc) (a b : String) (limit : Nat) : List Doc :=
  ((docs.filter (h2hQuery a b)).insertionSort dateGe).take limit

/-- Embeds the `/h2h` handler (analytics.py lines 168-185). -/
def head_to_head (team_a team_b : Option String) (limit : Nat) (docs : List Doc) : Resp :=
  if (team_a.getD "") == "" || (team_b.getD "") == "" then
    .err "VALIDATION_ERROR" "team_a and team_b are required" 422
  else
    let a := team_a.getD ""
    let b := team_b.getD ""
    .ok (.dict
      [("team_a", .str a), ("team_b", .str b),
       ("matches", .list ((mongoH2h docs a b limit).map serialize_match))])

/-! ### Longest-run characterization of `longest_streak` -/

/-- Reference count for the scan: `runSpec t c l` is the longest run of
`t` in `List.replicate c t ++ l` among runs that either extend the
carried run of length `c` or lie inside `l`. -/
def runSpec (t : String) : Nat → List String → Nat
  | c, [] => c
  | c, v :: vs => if v = t then runSpec t (c + 1) vs else max c (runSpec t 0 vs)

theorem le_runSpec (t : String) : ∀ (l : List String) (c : Nat), c ≤ runSpec t c l
  | [], _ => le_refl _
  | v :: vs, c => by
      by_cases h : v = t
      · simpa [runSpec, h] using le_trans (Nat.le_succ c) (le_runSpec t vs (c + 1))
      · simp [runSpec, h]

theorem runSpec_mono (t : String) :
    ∀ (l : List String) {c c' : Nat}, c ≤ c' → runSpec t c l ≤ runSpec t c' l
  | [], _, _, h => h
  | v :: vs, c, c', h => by
      by_cases hv : v = t
      · simpa [runSpec, hv] using runSpec_mono t vs (Nat.succ_le_succ h)
      · simpa [runSpec, hv] using max_le_max h (le_refl (runSpec t 0 vs))

theorem streak_foldl (t : String) :
    ∀ (l : List String) (L c : Nat), c ≤ L →
      (l.foldl
        (fun (lc : Nat × Nat) v =>
          if v == t then (max lc.1 (lc.2 + 1), lc.2 + 1) else (lc.1, 0)) (L, c)).1 =
        max L (runSpec t c l)
  | [], L, c, h => by simp [runSpec, Nat.max_eq_left h]
  | v :: vs, L, c, h => by
      by_cases hv : v = t
      · rw [List.foldl_cons]
        simp only [hv, beq_self_eq_true, if_true]
        rw [streak_foldl t vs (max L (c + 1)) (c + 1) (le_max_right _ _)]
        have h1 : c + 1 ≤ runSpec t (c + 1) vs := le_runSpec t vs (c + 1)
        rw [Nat.max_assoc, Nat.max_eq_right h1, runSpec]
        simp
      · rw [List.foldl_cons]
        have hbv : (v == t) = false := by simpa using hv
        have hcond : ¬((v == t) = true) := by simp [hbv]
        rw [if_neg hcond]
        rw [streak_foldl t vs L 0 (Nat.zero_le L)]
        have hr : runSpec t c (v :: vs) = max c (runSpec t 0 vs) := by
          simp [runSpec, hv]
        rw [hr, ← Nat.max_assoc, Nat.max_eq_left h]

theorem longest_streak_eq_runSpec (l : List String) (t : String) :
    longest_streak l t = runSpec t 0 l := by
  unfold longest_streak
  rw [streak_foldl t l 0 0 le_rfl]
  exact Nat.zero_max _

theorem runSpec_ge_prefix (t : String) :
    ∀ (m : Nat) (l : List String) (c : Nat),
      List.replicate m t <+: l → c + m ≤ runSpec t c l
  | 0, l, c, _ => by simpa using le_runSpec t l c
  | m + 1, l, c, h => by
      rw [List.replicate_succ] at h
      match l, h with
      | v :: vs, h =>
          rcases List.cons_prefix_cons.mp h with ⟨htv, hm⟩
          have h1 := runSpec_ge_prefix t m vs (c + 1) hm
          have hr : runSpec t c (v :: vs) = runSpec t (c + 1) vs := by
            simp [runSpec, htv.symm]
          rw [hr]
          omega

theorem le_runSpec_of_infix (t : String) :
    ∀ (l : List String) (n : Nat), List.replicate n t <:+: l → n ≤ runSpec t 0 l
  | [], n, h => by
      rw [List.infix_nil, List.replicate_eq_nil_iff] at h
      omega
  | v :: vs, n, h => by
      rcases List.infix_cons_iff.mp h with hpre | hinf
      · cases n with
        | zero => exact Nat.zero_le _
        | succ m =>
            rw [List.replicate_succ] at hpre
            rcases List.cons_prefix_cons.mp hpre with ⟨htv, hm⟩
            have h1 := runSpec_ge_prefix t m vs 1 hm
            have hr : runSpec t 0 (v :: vs) = runSpec t 1 vs := by
              simp [runSpec, htv.symm]
            rw [hr]
            omega
      · have h1 := le_runSpec_of_infix t vs n hinf
        have h2 : runSpec t 0 vs ≤ runSpec t 0 (v :: vs) := by
          by_cases hv : v = t
          · simpa [runSpec, hv] using runSpec_mono t vs (Nat.zero_le 1)
          · simp [runSpec, hv]
        omega

theorem replicate_runSpec_infix (t : String) :
    ∀ (l : List String) (c : Nat),
      List.replicate (runSpec t c l) t <:+: List.replicate c t ++ l
  | [], c => by simp [runSpec]
  | v :: vs, c => by
      by_cases hv : v = t
      · have hrec := replicate_runSpec_infix t vs (c + 1)
        rw [List.replicate_succ', List.append_assoc, List.singleton_append] at hrec
        have hr : runSpec t c (v :: vs) = runSpec t (c + 1) vs := by
          simp [runSpec, hv]
        rw [hr, hv]
        exact hrec
      · simp only [runSpec, if_neg hv]
        rcases Nat.le_total (runSpec t 0 vs) c with hle | hle
        · rw [Nat.max_eq_left hle]
          exact (List.prefix_append _ _).isInfix
        · rw [Nat.max_eq_right hle]
          have hrec := replicate_runSpec_infix t vs 0
          rw [List.replicate_zero, List.nil_append] at hrec
          refine hrec.trans ?_
          have hsplit : List.replicate c t ++ v :: vs = (List.replicate c t ++ [v]) ++ vs := by
            rw [List.append_assoc, List.singleton_append]
          rw [hsplit]
          exact (List.suffix_append _ _).isInfix

/-! ### Claim theorems: score extraction -/

/-- C1: the spec claims score extraction is total and in particular maps
`None` to (0,0), `"2-1"` to (2,1), a fulltime mapping with a non-numeric
`"x"` entry to (3,0), and a malformed fulltime string to (0,0).  The
code satisfies the first, second and fourth, but on
`score = ⟨fulltime: ⟨home: 3, away: "x"⟩⟩` it raises `ValueError`
(the string coercion `int("x")` in the dict branch of `parse_score` is
outside the `try/except`), so extraction is not total. -/
theorem parse_score_totality_check :
    parse_score PyVal.none = .ok (0, 0) ∧
    parse_score (.str "2-1") = .ok (2, 1) ∧
    parse_score (.dict [("fulltime", .str "bad")]) = .ok (0, 0) ∧
    parse_score (.dict [("fulltime", .dict [("home", .int 3), ("away", .str "x")])]) =
      .error PyExc.valueError := by
  decide

/-- C2 counterexample: a mapping score without a `fulltime` entry is NOT
treated as the fulltime value: the structured score ⟨home: 3, away: 1⟩
parses to (0,0), not (3,1), because `score.get("fulltime")` yields
`None` for it. -/
theorem parse_score_plain_mapping_counterexample :
    parse_score (.dict [("home", .int 3), ("away", .int 1)]) = .ok (0, 0) ∧
    parse_score (.dict [("home", .int 3), ("away", .int 1)]) ≠ .ok (3, 1) := by
  decide

/-- C2 (amended): only a non-mapping score value is treated wholesale as
the fulltime value; for a mapping the `fulltime` entry is looked up, so
every mapping whose `fulltime` lookup yields `None` (in particular every
mapping without a `fulltime` entry, such as ⟨home: h, away: a⟩) parses
to (0, 0). -/
theorem parse_score_mapping_without_fulltime (kvs : List (String × PyVal))
    (hnone : pyGet kvs "fulltime" = PyVal.none) :
    parse_score (.dict kvs) = .ok (0, 0) := by
  simp [parse_score, hnone]

theorem parse_score_mapping_without_fulltime_witness :
    pyGet [("home", PyVal.int 3), ("away", PyVal.int 1)] "fulltime" = PyVal.none ∧
    parse_score (.dict [("home", PyVal.int 3), ("away", PyVal.int 1)]) = .ok (0, 0) :=
  ⟨by decide, parse_score_mapping_without_fulltime _ (by decide)⟩

/-- Pure accessors of a match document, as read by the loops. -/
def homeOf (m : Doc) : PyVal := pyGet m "home_team_id"

/-- The away team id of a match document. -/
def awayOf (m : Doc) : PyVal := pyGet m "away_team_id"

/-- The score field of a match document, with the `.get("score", ⟨⟩)`
default of the source. -/
def scoreOf (m : Doc) : PyVal := pyGetD m "score" (.dict [])

/-- C5: `longest_streak` returns the length of the longest consecutive
run of the target symbol: the run of that length occurs as an infix and
no longer target-only infix exists.  Clean-sheet symbols are derived per
side with `"C"` exactly when the opponent scored zero, and the sequence
["C","N","N"] yields longest streak 1. -/
theorem longest_streak_longest_run (l : List String) (t : String) (n : Nat)
    (m : Doc) (tr : TeamResults) (hg ag : Int)
    (hn : List.replicate n t <:+: l)
    (hm1 : homeOf m ≠ PyVal.none) (hm2 : awayOf m ≠ PyVal.none)
    (hp : parse_score (scoreOf m) = .ok (hg, ag)) :
    (List.replicate (longest_streak l t) t <:+: l) ∧
    n ≤ longest_streak l t ∧
    streaksLoop "clean_sheet" tr [m] =
      .ok (dAppend (dAppend tr (homeOf m) (if ag = 0 then "C" else "N"))
        (awayOf m) (if hg = 0 then "C" else "N")) ∧
    longest_streak ["C", "N", "N"] "C" = 1 := by
  refine ⟨?_, ?_, ?_, by decide⟩
  · rw [longest_streak_eq_runSpec]
    simpa using replicate_runSpec_infix t l 0
  · rw [longest_streak_eq_runSpec]
    exact le_runSpec_of_infix t l n hn
  · simp only [streaksLoop, homeOf, awayOf, scoreOf] at hp ⊢
    rw [hp]
    have hb1 : (pyGet m "home_team_id" == PyVal.none) = false := by
      simpa [homeOf] using hm1
    have hb2 : (pyGet m "away_team_id" == PyVal.none) = false := by
      simpa [awayOf] using hm2
    simp [hb1, hb2]

theorem longest_streak_longest_run_witness :
    (List.replicate 1 "C" <:+: ["C", "N", "N"]) ∧
    homeOf exM1 ≠ PyVal.none ∧ awayOf exM1 ≠ PyVal.none ∧
    parse_score (scoreOf exM1) = .ok (3, 1) ∧
    ((List.replicate (longest_streak ["C", "N", "N"] "C") "C" <:+: ["C", "N", "N"]) ∧
      1 ≤ longest_streak ["C", "N", "N"] "C" ∧
      streaksLoop "clean_sheet" [] [exM1] =
        .ok (dAppend (dAppend [] (homeOf exM1) (if (1 : Int) = 0 then "C" else "N"))
          (awayOf exM1) (if (3 : Int) = 0 then "C" else "N")) ∧
      longest_streak ["C", "N", "N"] "C" = 1) :=
  ⟨by decide, by decide, by decide, by decide,
    longest_streak_longest_run ["C", "N", "N"] "C" 1 exM1 [] 3 1
      (by decide) (by decide) (by decide) (by decide)⟩

/-! ### Standings accumulation: per-entry effect of one match -/

/-- The net effect of one match on the accumulator entry of team `k`:
the same updates as `applyMatch`, in the same order, conditioned on
which of the two sides (possibly both, when `home = away`) the entry
belongs to. -/
def matchEffect (home away : PyVal) (hg ag : Int) (k : PyVal) (s : TeamStanding) :
    TeamStanding :=
  let s1 := if k == home then { s with played := s.played + 1 } else s
  let s2 := if k == away then { s1 with played := s1.played + 1 } else s1
  let s3 := if k == home then { s2 with goals_for := s2.goals_for + hg } else s2
  let s4 := if k == home then { s3 with goals_against := s3.goals_against + ag } else s3
  let s5 := if k == away then { s4 with goals_for := s4.goals_for + ag } else s4
  let s6 := if k == away then { s5 with goals_against := s5.goals_against + hg } else s5
  if hg > ag then
    let s7 := if k == home then { s6 with wins := s6.wins + 1 } else s6
    if k == away then { s7 with losses := s7.losses + 1 } else s7
  else if hg < ag then
    let s7 := if k == away then { s6 with wins := s6.wins + 1 } else s6
    if k == home then { s7 with losses := s7.losses + 1 } else s7
  else
    let s7 := if k == home then { s6 with draws := s6.draws + 1 } else s6
    if k == away then { s7 with draws := s7.draws + 1 } else s7

theorem applyMatch_eq_map (st : Standings) (home away : PyVal) (hg ag : Int) :
    applyMatch st home away hg ag =
      (dAccess (dAccess st home) away).map
        (fun p => (p.1, matchEffect home away hg ag p.1 p.2)) := by
  unfold applyMatch dModify
  rcases lt_trichotomy hg ag with h1 | h1 | h1
  · rw [if_neg (by omega : ¬hg > ag), if_pos h1]
    rw [List.map_map, List.map_map, List.map_map, List.map_map, List.map_map,
      List.map_map, List.map_map]
    refine List.map_congr_left (fun p _ => ?_)
    by_cases hh : (p.1 == home) = true <;> by_cases ha : (p.1 == away) = true <;>
      simp [matchEffect, Function.comp, hh, ha, h1, (by omega : ¬hg > ag),
        (by omega : ¬ag < hg)] <;>
      (split_ifs <;> first | rfl | (exfalso; omega))
  · rw [if_neg (by omega : ¬hg > ag), if_neg (by omega : ¬hg < ag)]
    rw [List.map_map, List.map_map, List.map_map, List.map_map, List.map_map,
      List.map_map, List.map_map]
    refine List.map_congr_left (fun p _ => ?_)
    by_cases hh : (p.1 == home) = true <;> by_cases ha : (p.1 == away) = true <;>
      simp [matchEffect, Function.comp, hh, ha, (by omega : ¬hg > ag),
        (by omega : ¬hg < ag), (by omega : ¬ag < hg)] <;>
      (split_ifs <;> first | rfl | (exfalso; omega))
  · rw [if_pos h1]
    rw [List.map_map, List.map_map, List.map_map, List.map_map, List.map_map,
      List.map_map, List.map_map]
    refine List.map_congr_left (fun p _ => ?_)
    by_cases hh : (p.1 == home) = true <;> by_cases ha : (p.1 == away) = true <;>
      simp [matchEffect, Function.comp, hh, ha, h1]

/-- Whether the accumulator already has an entry for key `k`. -/
def containsKey (st : Standings) (k : PyVal) : Bool :=
  st.any (fun p => p.1 == k)

/-- The accumulated standing of team `k`, `TeamStanding.zero` when the
key is absent. -/
def stVal : Standings → PyVal → TeamStanding
  | [], _ => TeamStanding.zero
  | p :: rest, k => if p.1 == k then p.2 else stVal rest k

theorem stVal_append_zero (k k' : PyVal) :
    ∀ st : Standings, stVal (st ++ [(k', TeamStanding.zero)]) k = stVal st k
  | [] => by by_cases h : (k' == k) = true <;> simp [stVal, h]
  | p :: rest => by
      by_cases h : (p.1 == k) = true <;>
        simp [stVal, h, stVal_append_zero k k' rest]

theorem stVal_dAccess (st : Standings) (k' k : PyVal) :
    stVal (dAccess st k') k = stVal st k := by
  unfold dAccess
  split
  · rfl
  · exact stVal_append_zero k k' st

theorem containsKey_dAccess_self (st : Standings) (k : PyVal) :
    containsKey (dAccess st k) k = true := by
  unfold dAccess containsKey
  split
  · assumption
  · simp [List.any_append]

theorem containsKey_dAccess_mono (st : Standings) (k' k : PyVal)
    (h : containsKey st k = true) : containsKey (dAccess st k') k = true := by
  unfold dAccess
  split
  · exact h
  · simp only [containsKey, List.any_append] at *
    simp [h]

theorem containsKey_map_keys (F : PyVal → TeamStanding → TeamStanding) (k : PyVal) :
    ∀ l : Standings, containsKey (l.map (fun p => (p.1, F p.1 p.2))) k = containsKey l k
  | [] => rfl
  | p :: rest => by
      simp only [containsKey, List.map_cons, List.any_cons]
      have ih := containsKey_map_keys F k rest
      simp only [containsKey] at ih
      rw [ih]

theorem stVal_map_of_contains (F : PyVal → TeamStanding → TeamStanding) (k : PyVal) :
    ∀ l : Standings, containsKey l k = true →
      stVal (l.map (fun p => (p.1, F p.1 p.2))) k = F k (stVal l k)
  | [], h => by simp [containsKey] at h
  | p :: rest, h => by
      by_cases hp : (p.1 == k) = true
      · have : p.1 = k := eq_of_beq hp
        simp [stVal, hp, this]
      · have hrest : containsKey rest k = true := by
          simpa [containsKey, List.any_cons, hp] using h
        simp [stVal, hp, stVal_map_of_contains F k rest hrest]

theorem stVal_not_contains (k : PyVal) :
    ∀ l : Standings, containsKey l k = false → stVal l k = TeamStanding.zero
  | [], _ => rfl
  | p :: rest, h => by
      simp only [containsKey, List.any_cons, Bool.or_eq_false_iff] at h
      simp [stVal, h.1, stVal_not_contains k rest h.2]

theorem stVal_applyMatch (st : Standings) (home away : PyVal) (hg ag : Int) (k : PyVal) :
    stVal (applyMatch st home away hg ag) k =
      matchEffect home away hg ag k (stVal st k) := by
  rw [applyMatch_eq_map]
  by_cases hc : containsKey (dAccess (dAccess st home) away) k = true
  · rw [stVal_map_of_contains _ _ _ hc, stVal_dAccess, stVal_dAccess]
  · have hc' : containsKey (dAccess (dAccess st home) away) k = false := by
      simpa using hc
    have hkh : (k == home) = false := by
      by_cases h : (k == home) = true
      · exfalso
        have : k = home := eq_of_beq h
        subst this
        exact hc (containsKey_dAccess_mono _ _ _ (containsKey_dAccess_self _ _))
      · simpa using h
    have hka : (k == away) = false := by
      by_cases h : (k == away) = true
      · exfalso
        have : k = away := eq_of_beq h
        subst this
        exact hc (containsKey_dAccess_self _ _)
      · simpa using h
    have hst : containsKey st k = false := by
      by_cases h : containsKey st k = true
      · exact absurd (containsKey_dAccess_mono _ _ _
          (containsKey_dAccess_mono _ _ _ h)) hc
      · simpa using h
    rw [stVal_not_contains _ _ (by rw [containsKey_map_keys]; exact hc'),
      stVal_not_contains _ _ hst]
    unfold matchEffect
    rcases lt_trichotomy hg ag with h1 | h1 | h1 <;>
      simp [hkh, hka, h1, lt_asymm, lt_irrefl]

/-- The parsed (home, away) goal pair of a match document when
extraction succeeds (the loops only reach a pure state when it does). -/
def psPair (m : Doc) : Int × Int :=
  ((parse_score (scoreOf m)).toOption).getD (0, 0)

/-- Home goals of a match, on extraction success. -/
def psH (m : Doc) : Int := (psPair m).1

/-- Away goals of a match, on extraction success. -/
def psA (m : Doc) : Int := (psPair m).2

/-- The pure per-match contribution to team `k`: nothing when a team id
is missing, otherwise the `matchEffect` of the parsed score. -/
def contrib (m : Doc) (k : PyVal) (s : TeamStanding) : TeamStanding :=
  if homeOf m == PyVal.none || awayOf m == PyVal.none then s
  else matchEffect (homeOf m) (awayOf m) (psH m) (psA m) k s

theorem tableLoop_stVal :
    ∀ (ms : List Doc) (st st' : Standings), tableLoop st ms = .ok st' →
      ∀ k, stVal st' k = ms.foldl (fun s m => contrib m k s) (stVal st k)
  | [], st, st', h, k => by
      simp only [tableLoop] at h
      cases h
      simp
  | m :: ms, st, st', h, k => by
      rw [List.foldl_cons]
      simp only [tableLoop] at h
      split at h
      · exact absurd h (by simp)
      · rename_i hg ag hps
        have hpair : psPair m = (hg, ag) := by
          simp [psPair, scoreOf, hps, Except.toOption]
        by_cases hskip :
            (pyGet m "home_team_id" == PyVal.none ||
              pyGet m "away_team_id" == PyVal.none) = true
        · rw [if_pos hskip] at h
          have hc : contrib m k (stVal st k) = stVal st k := by
            simp only [contrib, homeOf, awayOf]
            rw [if_pos hskip]
          rw [hc]
          exact tableLoop_stVal ms st st' h k
        · rw [if_neg hskip] at h
          have hc : contrib m k (stVal st k) =
              matchEffect (pyGet m "home_team_id") (pyGet m "away_team_id")
                hg ag k (stVal st k) := by
            simp only [contrib, homeOf, awayOf, psH, psA, hpair]
            rw [if_neg hskip]
          rw [hc, ← stVal_applyMatch]
          exact tableLoop_stVal ms _ st' h k

/-- The key list of the accumulator. -/
def keysOf (st : Standings) : List PyVal := st.map Prod.fst

theorem keysOf_dAccess_nodup (st : Standings) (k : PyVal)
    (h : (keysOf st).Nodup) : (keysOf (dAccess st k)).Nodup := by
  unfold dAccess
  split
  · exact h
  · rename_i hany
    have hnotmem : k ∉ keysOf st := by
      intro hmem
      rcases List.mem_map.mp hmem with ⟨p, hp, hpk⟩
      have : st.any (fun p => p.1 == k) = true :=
        List.any_eq_true.mpr ⟨p, hp, by simp [hpk]⟩
      exact absurd this (by simpa using hany)
    simp only [keysOf, List.map_append, List.map_cons, List.map_nil]
    rw [List.nodup_append]
    refine ⟨h, List.nodup_singleton _, ?_⟩
    intro a ha hb
    simp only [List.mem_singleton] at hb
    subst hb
    exact hnotmem ha

theorem keysOf_applyMatch (st : Standings) (home away : PyVal) (hg ag : Int) :
    keysOf (applyMatch st home away hg ag) = keysOf (dAccess (dAccess st home) away) := by
  rw [applyMatch_eq_map]
  simp [keysOf, Function.comp]

theorem tableLoop_nodup :
    ∀ (ms : List Doc) (st st' : Standings), tableLoop st ms = .ok st' →
      (keysOf st).Nodup → (keysOf st').Nodup
  | [], st, st', h, hn => by
      simp only [tableLoop] at h
      cases h
      exact hn
  | m :: ms, st, st', h, hn => by
      simp only [tableLoop] at h
      split at h
      · exact absurd h (by simp)
      · rename_i hg ag hps
        by_cases hskip :
            (pyGet m "home_team_id" == PyVal.none ||
              pyGet m "away_team_id" == PyVal.none) = true
        · rw [if_pos hskip] at h
          exact tableLoop_nodup ms st st' h hn
        · rw [if_neg hskip] at h
          refine tableLoop_nodup ms _ st' h ?_
          rw [keysOf_applyMatch]
          exact keysOf_dAccess_nodup _ _ (keysOf_dAccess_nodup _ _ hn)

theorem stVal_of_mem_nodup (k : PyVal) (s : TeamStanding) :
    ∀ st : Standings, (keysOf st).Nodup → (k, s) ∈ st → stVal st k = s
  | [], _, hmem => by simp at hmem
  | p :: rest, hn, hmem => by
      rcases List.mem_cons.mp hmem with heq | hmem'
      · subst heq
        simp [stVal]
      · have hk : k ∈ keysOf rest := List.mem_map.mpr ⟨(k, s), hmem', rfl⟩
        have hp1 : (p.1 == k) = false := by
          by_cases h : (p.1 == k) = true
          · have : p.1 = k := eq_of_beq h
            rw [keysOf, List.map_cons] at hn
            rw [List.nodup_cons] at hn
            exact absurd (this ▸ hk) hn.1
          · simpa using h
        have hn' : (keysOf rest).Nodup := by
          rw [keysOf, List.map_cons, List.nodup_cons] at hn
          exact hn.2
        simp [stVal, hp1, stVal_of_mem_nodup k s rest hn' hmem']

theorem matchEffect_played (home away : PyVal) (hg ag : Int) (k : PyVal) (s : TeamStanding) :
    (matchEffect home away hg ag k s).played =
      s.played + ((if k = home then 1 else 0) + (if k = away then 1 else 0)) := by
  simp only [matchEffect, beq_iff_eq]
  split_ifs <;> simp_all

theorem matchEffect_wins (home away : PyVal) (hg ag : Int) (k : PyVal) (s : TeamStanding) :
    (matchEffect home away hg ag k s).wins =
      s.wins + ((if k = home ∧ ag < hg then 1 else 0) +
        (if k = away ∧ hg < ag then 1 else 0)) := by
  simp only [matchEffect, beq_iff_eq]
  split_ifs <;> simp_all <;> omega

theorem matchEffect_draws (home away : PyVal) (hg ag : Int) (k : PyVal) (s : TeamStanding) :
    (matchEffect home away hg ag k s).draws =
      s.draws + ((if k = home ∧ hg = ag then 1 else 0) +
        (if k = away ∧ hg = ag then 1 else 0)) := by
  simp only [matchEffect, beq_iff_eq]
  split_ifs <;> simp_all <;> omega

theorem matchEffect_losses (home away : PyVal) (hg ag : Int) (k : PyVal) (s : TeamStanding) :
    (matchEffect home away hg ag k s).losses =
      s.losses + ((if k = home ∧ hg < ag then 1 else 0) +
        (if k = away ∧ ag < hg then 1 else 0)) := by
  simp only [matchEffect, beq_iff_eq]
  split_ifs <;> simp_all <;> omega

theorem matchEffect_gf (home away : PyVal) (hg ag : Int) (k : PyVal) (s : TeamStanding) :
    (matchEffect home away hg ag k s).goals_for =
      s.goals_for + ((if k = home then hg else 0) + (if k = away then ag else 0)) := by
  simp only [matchEffect, beq_iff_eq]
  split_ifs <;> simp_all <;> omega

theorem matchEffect_ga (home away : PyVal) (hg ag : Int) (k : PyVal) (s : TeamStanding) :
    (matchEffect home away hg ag k s).goals_against =
      s.goals_against + ((if k = home then ag else 0) + (if k = away then hg else 0)) := by
  simp only [matchEffect, beq_iff_eq]
  split_ifs <;> simp_all <;> omega

/-! ### Closed-form accumulation totals, as the claim states them -/

/-- Matches played by team `k`: once per match on each side. -/
def accPlayed (k : PyVal) (ms : List Doc) : Nat :=
  ms.countP (fun m => decide (k = homeOf m)) + ms.countP (fun m => decide (k = awayOf m))

/-- Wins of team `k`: home side with `hg > ag`, away side with `hg < ag`. -/
def accWins (k : PyVal) (ms : List Doc) : Nat :=
  ms.countP (fun m => decide (k = homeOf m ∧ psA m < psH m)) +
    ms.countP (fun m => decide (k = awayOf m ∧ psH m < psA m))

/-- Draws of team `k`: either side with `hg = ag`. -/
def accDraws (k : PyVal) (ms : List Doc) : Nat :=
  ms.countP (fun m => decide (k = homeOf m ∧ psH m = psA m)) +
    ms.countP (fun m => decide (k = awayOf m ∧ psH m = psA m))

/-- Losses of team `k`: home side with `hg < ag`, away side with `hg > ag`. -/
def accLosses (k : PyVal) (ms : List Doc) : Nat :=
  ms.countP (fun m => decide (k = homeOf m ∧ psH m < psA m)) +
    ms.countP (fun m => decide (k = awayOf m ∧ psA m < psH m))

/-- Goals scored by team `k`: `hg` as home, `ag` as away, summed. -/
def accGF (k : PyVal) (ms : List Doc) : Int :=
  (ms.map (fun m =>
    (if k = homeOf m then psH m else 0) + (if k = awayOf m then psA m else 0))).sum

/-- Goals conceded by team `k`: `ag` as home, `hg` as away, summed. -/
def accGA (k : PyVal) (ms : List Doc) : Int :=
  (ms.map (fun m =>
    (if k = homeOf m then psA m else 0) + (if k = awayOf m then psH m else 0))).sum

theorem accPlayed_cons (k : PyVal) (m : Doc) (ms : List Doc) :
    accPlayed k (m :: ms) =
      accPlayed k ms + ((if k = homeOf m then 1 else 0) + (if k = awayOf m then 1 else 0)) := by
  unfold accPlayed
  rw [List.countP_cons, List.countP_cons]
  simp only [decide_eq_true_eq]
  split_ifs <;> omega

theorem accWins_cons (k : PyVal) (m : Doc) (ms : List Doc) :
    accWins k (m :: ms) =
      accWins k ms + ((if k = homeOf m ∧ psA m < psH m then 1 else 0) +
        (if k = awayOf m ∧ psH m < psA m then 1 else 0)) := by
  unfold accWins
  rw [List.countP_cons, List.countP_cons]
  simp only [decide_eq_true_eq]
  split_ifs <;> omega

theorem accDraws_cons (k : PyVal) (m : Doc) (ms : List Doc) :
    accDraws k (m :: ms) =
      accDraws k ms + ((if k = homeOf m ∧ psH m = psA m then 1 else 0) +
        (if k = awayOf m ∧ psH m = psA m then 1 else 0)) := by
  unfold accDraws
  rw [List.countP_cons, List.countP_cons]
  simp only [decide_eq_true_eq]
  split_ifs <;> omega

theorem accLosses_cons (k : PyVal) (m : Doc) (ms : List Doc) :
    accLosses k (m :: ms) =
      accLosses k ms + ((if k = homeOf m ∧ psH m < psA m then 1 else 0) +
        (if k = awayOf m ∧ psA m < psH m then 1 else 0)) := by
  unfold accLosses
  rw [List.countP_cons, List.countP_cons]
  simp only [decide_eq_true_eq]
  split_ifs <;> omega

theorem accGF_cons (k : PyVal) (m : Doc) (ms : List Doc) :
    accGF k (m :: ms) =
      accGF k ms + ((if k = homeOf m then psH m else 0) +
        (if k = awayOf m then psA m else 0)) := by
  unfold accGF
  rw [List.map_cons, List.sum_cons]
  split_ifs <;> omega

theorem accGA_cons (k : PyVal) (m : Doc) (ms : List Doc) :
    accGA k (m :: ms) =
      accGA k ms + ((if k = homeOf m then psA m else 0) +
        (if k = awayOf m then psH m else 0)) := by
  unfold accGA
  rw [List.map_cons, List.sum_cons]
  split_ifs <;> omega

theorem contrib_foldl (k : PyVal) :
    ∀ (ms : List Doc) (s0 : TeamStanding),
      (∀ m ∈ ms, homeOf m ≠ PyVal.none ∧ awayOf m ≠ PyVal.none) →
      ms.foldl (fun s m => contrib m k s) s0 =
        ⟨s0.played + accPlayed k ms, s0.wins + accWins k ms, s0.draws + accDraws k ms,
         s0.losses + accLosses k ms, s0.goals_for + accGF k ms,
         s0.goals_against + accGA k ms⟩
  | [], s0, _ => by
      simp [accPlayed, accWins, accDraws, accLosses, accGF, accGA]
  | m :: ms, s0, hids => by
      rw [List.foldl_cons,
        contrib_foldl k ms _ (fun m' hm' => hids m' (List.mem_cons_of_mem _ hm'))]
      have hm := hids m (List.mem_cons_self _ _)
      have hb1 : (homeOf m == PyVal.none) = false := by simpa using hm.1
      have hb2 : (awayOf m == PyVal.none) = false := by simpa using hm.2
      have hc : contrib m k s0 =
          matchEffect (homeOf m) (awayOf m) (psH m) (psA m) k s0 := by
        simp [contrib, hb1, hb2]
      rw [hc]
      rw [accPlayed_cons, accWins_cons, accDraws_cons, accLosses_cons,
        accGF_cons, accGA_cons]
      simp only [TeamStanding.mk.injEq]
      refine ⟨?_, ?_, ?_, ?_, ?_, ?_⟩
      · rw [matchEffect_played]; split_ifs <;> omega
      · rw [matchEffect_wins]; split_ifs <;> omega
      · rw [matchEffect_draws]; split_ifs <;> omega
      · rw [matchEffect_losses]; split_ifs <;> omega
      · rw [matchEffect_gf]; split_ifs <;> omega
      · rw [matchEffect_ga]; split_ifs <;> omega

/-- A match with both team ids present whose score makes `parse_score`
raise: `league_table` aborts on it instead of accumulating. -/
def exBadMatch : Doc :=
  [("home_team_id", .str "A"), ("away_team_id", .str "B"),
   ("score", .dict [("fulltime", .dict [("home", .str "x"), ("away", .int 0)])])]

/-- The spec example's TeamX row. -/
def exRowX : Row :=
  { team_id := .str "TeamX", played := 2, wins := 1, draws := 1, losses := 0,
    goals_for := 5, goals_against := 3, goal_difference := 2, points := 4 }

/-- The spec example's TeamY row. -/
def exRowY : Row :=
  { team_id := .str "TeamY", played := 2, wins := 0, draws := 1, losses := 1,
    goals_for := 3, goals_against := 5, goal_difference := -2, points := 1 }

/-- C3 counterexample: a match set whose matches all have both team ids
present on which the standings builder does not accumulate anything: it
raises `ValueError` out of `parse_score`, so the claim as stated (for
EVERY such match set the accumulation happens) is false. -/
theorem league_table_accumulation_counterexample :
    league_tableRows [exBadMatch] = .error PyExc.valueError := by
  decide

/-- C3 (amended): provided the computation completes (score extraction
succeeds on every match, which fails e.g. on `exBadMatch`), the
standings builder accumulates per team exactly as claimed: `played`
counts each side appearance, wins/draws/losses follow the hg-vs-ag
comparison per side, goals add symmetrically, each row computes
`goal_difference = goals_for - goals_against` and
`points = wins*3 + draws`, and the TeamX/TeamY example evaluates with
TeamX (4 points) ranked above TeamY (1 point). -/
theorem league_table_accumulation (ms : List Doc) (rows : List Row)
    (hids : ∀ m ∈ ms, homeOf m ≠ PyVal.none ∧ awayOf m ≠ PyVal.none)
    (hok : league_tableRows ms = .ok rows) :
    (∀ r ∈ rows,
      r.played = accPlayed r.team_id ms ∧
      r.wins = accWins r.team_id ms ∧
      r.draws = accDraws r.team_id ms ∧
      r.losses = accLosses r.team_id ms ∧
      r.goals_for = accGF r.team_id ms ∧
      r.goals_against = accGA r.team_id ms ∧
      r.goal_difference = r.goals_for - r.goals_against ∧
      r.points = r.wins * 3 + r.draws) ∧
    league_tableRows [exM1, exM2] = .ok [exRowX, exRowY] := by
  refine ⟨?_, by decide⟩
  simp only [league_tableRows] at hok
  split at hok
  · exact absurd hok (by simp)
  · rename_i st htl
    injection hok with hrows
    intro r hr
    rw [← hrows] at hr
    have hmem : r ∈ st.map mkRow :=
      (List.perm_insertionSort rowLe _).mem_iff.mp (by simpa [sortTable] using hr)
    rcases List.mem_map.mp hmem with ⟨p, hp, hmk⟩
    have hnodup : (keysOf st).Nodup :=
      tableLoop_nodup ms [] st htl (by simp [keysOf])
    have hsv : stVal st p.1 = p.2 :=
      stVal_of_mem_nodup p.1 p.2 st hnodup (by rwa [Prod.mk.eta])
    have hfold := tableLoop_stVal ms [] st htl p.1
    rw [show stVal ([] : Standings) p.1 = TeamStanding.zero from rfl,
      contrib_foldl p.1 ms TeamStanding.zero hids] at hfold
    have hp2 := hsv.symm.trans hfold
    subst hmk
    refine ⟨?_, ?_, ?_, ?_, ?_, ?_, ?_, ?_⟩ <;>
      simp [mkRow, hp2, TeamStanding.zero, TeamStanding.goal_diff, TeamStanding.points]

theorem league_table_accumulation_witness :
    (∀ m ∈ [exM1, exM2], homeOf m ≠ PyVal.none ∧ awayOf m ≠ PyVal.none) ∧
    ((∀ r ∈ [exRowX, exRowY],
      r.played = accPlayed r.team_id [exM1, exM2] ∧
      r.wins = accWins r.team_id [exM1, exM2] ∧
      r.draws = accDraws r.team_id [exM1, exM2] ∧
      r.losses = accLosses r.team_id [exM1, exM2] ∧
      r.goals_for = accGF r.team_id [exM1, exM2] ∧
      r.goals_against = accGA r.team_id [exM1, exM2] ∧
      r.goal_difference = r.goals_for - r.goals_against ∧
      r.points = r.wins * 3 + r.draws) ∧
    league_tableRows [exM1, exM2] = .ok [exRowX, exRowY]) :=
  ⟨by decide, league_table_accumulation [exM1, exM2] [exRowX, exRowY] (by decide) (by decide)⟩

theorem contrib_inv (m : Doc) (k : PyVal) (s : TeamStanding)
    (h : s.played = s.wins + s.draws + s.losses) :
    (contrib m k s).played =
      (contrib m k s).wins + (contrib m k s).draws + (contrib m k s).losses := by
  unfold contrib
  split
  · exact h
  · rw [matchEffect_played, matchEffect_wins, matchEffect_draws, matchEffect_losses]
    split_ifs <;> simp_all <;> omega

theorem foldl_contrib_inv (k : PyVal) :
    ∀ (l : List Doc) (s : TeamStanding), s.played = s.wins + s.draws + s.losses →
      (l.foldl (fun s m => contrib m k s) s).played =
        (l.foldl (fun s m => contrib m k s) s).wins +
          (l.foldl (fun s m => contrib m k s) s).draws +
          (l.foldl (fun s m => contrib m k s) s).losses
  | [], _, h => h
  | m :: l, s, h => by
      rw [List.foldl_cons]
      exact foldl_contrib_inv k l _ (contrib_inv m k s h)

/-- C10: every row of the league table output satisfies
`played = wins + draws + losses`: each processed match increments
`played` once per side together with exactly one of wins/draws/losses
for that side, so the identity is an invariant of the accumulation. -/
theorem league_table_played_identity (ms : List Doc) (rows : List Row)
    (hok : league_tableRows ms = .ok rows) :
    ∀ r ∈ rows, r.played = r.wins + r.draws + r.losses := by
  simp only [league_tableRows] at hok
  split at hok
  · exact absurd hok (by simp)
  · rename_i st htl
    injection hok with hrows
    intro r hr
    rw [← hrows] at hr
    have hmem : r ∈ st.map mkRow :=
      (List.perm_insertionSort rowLe _).mem_iff.mp (by simpa [sortTable] using hr)
    rcases List.mem_map.mp hmem with ⟨p, hp, hmk⟩
    have hnodup : (keysOf st).Nodup :=
      tableLoop_nodup ms [] st htl (by simp [keysOf])
    have hsv : stVal st p.1 = p.2 :=
      stVal_of_mem_nodup p.1 p.2 st hnodup (by rwa [Prod.mk.eta])
    have hfold := tableLoop_stVal ms [] st htl p.1
    have hinv := foldl_contrib_inv p.1 ms TeamStanding.zero rfl
    rw [show stVal ([] : Standings) p.1 = TeamStanding.zero from rfl] at hfold
    rw [← hfold, hsv] at hinv
    subst hmk
    simpa [mkRow] using hinv

theorem league_table_played_identity_witness :
    league_tableRows [exM1, exM2] = .ok [exRowX, exRowY] ∧
    (∀ r ∈ [exRowX, exRowY], r.played = r.wins + r.draws + r.losses) :=
  ⟨by decide, league_table_played_identity [exM1, exM2] [exRowX, exRowY] (by decide)⟩

/-- The spec's description of the output order: descending by points,
ties broken descending by goal difference, then descending by goals
for (the reflexive/total comparison of that order). -/
def specDescLe (a b : Row) : Prop :=
  b.points < a.points ∨
    (b.points = a.points ∧ (b.goal_difference < a.goal_difference ∨
      (b.goal_difference = a.goal_difference ∧ b.goals_for ≤ a.goals_for)))

theorem rowLe_iff_specDescLe (a b : Row) : rowLe a b ↔ specDescLe a b := by
  unfold rowLe keyLe rowKey specDescLe
  dsimp only
  omega

theorem keyLe_refl (x : Int × Int × Int) : keyLe x x := by
  unfold keyLe
  omega

/-- C4: the returned table is the stable sort of the accumulated rows
under the claimed descending key order: it is a permutation of the
unsorted rows, pairwise ordered descending by points, then goal
difference, then goals for, and rows fully tied on all three keys keep
their relative order (the filter at any fixed key triple is unchanged
by the sort). -/
theorem league_table_sorted_stable (ms : List Doc) (st : Standings) (rows : List Row)
    (htl : tableLoop [] ms = .ok st) (hok : league_tableRows ms = .ok rows) :
    rows.Perm (st.map mkRow) ∧
    List.Pairwise specDescLe rows ∧
    ∀ k3 : Int × Int × Int,
      rows.filter (fun r => decide (rowKey r = k3)) =
        (st.map mkRow).filter (fun r => decide (rowKey r = k3)) := by
  have hrows : rows = sortTable (st.map mkRow) := by
    simp only [league_tableRows, htl] at hok
    exact (by injection hok with h; exact h.symm)
  subst hrows
  refine ⟨by simpa [sortTable] using List.perm_insertionSort rowLe (st.map mkRow), ?_, ?_⟩
  · have hs := List.sorted_insertionSort rowLe (st.map mkRow)
    exact hs.imp (fun hab => (rowLe_iff_specDescLe _ _).mp hab)
  · intro k3
    have hkey : ∀ x ∈ (st.map mkRow).filter (fun r => decide (rowKey r = k3)),
        rowKey x = k3 := by
      intro x hx
      simpa using (List.mem_filter.mp hx).2
    have hcp : ((st.map mkRow).filter (fun r => decide (rowKey r = k3))).Pairwise rowLe := by
      refine List.pairwise_of_forall_mem_list (fun a ha b hb => ?_)
      unfold rowLe
      rw [hkey a ha, hkey b hb]
      exact keyLe_refl k3
    have h1 := List.sublist_insertionSort hcp (List.filter_sublist (st.map mkRow))
    have h2 := h1.filter (fun r => decide (rowKey r = k3))
    rw [List.filter_eq_self.mpr (fun a ha => (List.mem_filter.mp ha).2)] at h2
    have hperm := (List.perm_insertionSort rowLe (st.map mkRow)).filter
      (fun r => decide (rowKey r = k3))
    have heq := h2.eq_of_length hperm.length_eq.symm
    simpa [sortTable] using heq.symm

theorem league_table_sorted_stable_witness :
    tableLoop [] [exM1, exM2] =
      .ok [(.str "TeamX", ⟨2, 1, 1, 0, 5, 3⟩), (.str "TeamY", ⟨2, 0, 1, 1, 3, 5⟩)] ∧
    league_tableRows [exM1, exM2] = .ok [exRowX, exRowY] ∧
    ([exRowX, exRowY].Perm
        ([(PyVal.str "TeamX", (⟨2, 1, 1, 0, 5, 3⟩ : TeamStanding)),
          (PyVal.str "TeamY", ⟨2, 0, 1, 1, 3, 5⟩)].map mkRow) ∧
      List.Pairwise specDescLe [exRowX, exRowY] ∧
      ∀ k3 : Int × Int × Int,
        [exRowX, exRowY].filter (fun r => decide (rowKey r = k3)) =
          ([(PyVal.str "TeamX", (⟨2, 1, 1, 0, 5, 3⟩ : TeamStanding)),
            (PyVal.str "TeamY", ⟨2, 0, 1, 1, 3, 5⟩)].map mkRow).filter
            (fun r => decide (rowKey r = k3))) :=
  ⟨by decide, by decide,
    league_table_sorted_stable [exM1, exM2] _ [exRowX, exRowY] (by decide) (by decide)⟩

/-! ### Leaderboard counting -/

/-- A qualifying scorer event: a dict whose `type` equals `"goal"` and
whose `player_id` is truthy (non-empty). -/
def isGoalEvent (e : PyVal) : Bool :=
  match e with
  | .dict kvs => PyVal.beq (pyGet kvs "type") (.str "goal") && pyTruthy (pyGet kvs "player_id")
  | _ => false

/-- The `player_id` of an event dict. -/
def eventPlayer (e : PyVal) : PyVal :=
  match e with
  | .dict kvs => pyGet kvs "player_id"
  | _ => .none

/-- A qualifying scorer event credited to player `p`. -/
def isGoalEventOf (p : PyVal) (e : PyVal) : Bool :=
  isGoalEvent e && (eventPlayer e == p)

/-- The events list of a match document, as the loop iterates it (when
iteration succeeds). -/
def eventsOf (m : Doc) : List PyVal :=
  ((pyIter (pyGetD m "events" (.list []))).toOption).getD []

/-- The goal tally of player `p` in the counter. -/
def lookupCount (gc : GoalCounts) (p : PyVal) : Nat :=
  (((gc.find? (fun q => q.1 == p)).map Prod.snd)).getD 0

/-- The number of qualifying events credited to `p` over the scoped
matches. -/
def goalsScored (p : PyVal) (ms : List Doc) : Nat :=
  (ms.map (fun m => (eventsOf m).countP (isGoalEventOf p))).sum

/-- The number of qualifying events over the scoped matches. -/
def totalGoals (ms : List Doc) : Nat :=
  (ms.map (fun m => (eventsOf m).countP isGoalEvent)).sum

theorem lookupCount_map_ne (k p : PyVal) (hne : p ≠ k) :
    ∀ gc : GoalCounts,
      lookupCount (gc.map (fun q => if q.1 == k then (q.1, q.2 + 1) else q)) p =
        lookupCount gc p
  | [] => rfl
  | q :: rest => by
      by_cases hq : (q.1 == p) = true
      · have hqp : q.1 = p := eq_of_beq hq
        have hk : (q.1 == k) = false := by
          simp [hqp]
          exact hne
        simp [lookupCount, List.find?, hk, hq]
      · have hq' : (q.1 == p) = false := by simpa using hq
        have hstep := lookupCount_map_ne k p hne rest
        by_cases hk : (q.1 == k) = true <;>
          simpa [lookupCount, List.find?, hk, hq'] using hstep

theorem lookupCount_map_self (k : PyVal) :
    ∀ gc : GoalCounts, gc.any (fun q => q.1 == k) = true →
      lookupCount (gc.map (fun q => if q.1 == k then (q.1, q.2 + 1) else q)) k =
        lookupCount gc k + 1
  | [], h => by simp at h
  | q :: rest, h => by
      by_cases hk : (q.1 == k) = true
      · simp [lookupCount, List.find?, hk]
      · have hrest : rest.any (fun q => q.1 == k) = true := by
          simpa [List.any_cons, hk] using h
        have hstep := lookupCount_map_self k rest hrest
        simpa [lookupCount, List.find?, hk] using hstep

theorem lookupCount_append_ne (k p : PyVal) (hne : p ≠ k) :
    ∀ gc : GoalCounts, lookupCount (gc ++ [(k, 1)]) p = lookupCount gc p
  | [] => by
      have hk : (k == p) = false := by
        simp
        exact fun e => hne e.symm
      simp [lookupCount, List.find?, hk]
  | q :: rest => by
      by_cases hq : (q.1 == p) = true <;>
        simpa [lookupCount, List.find?, hq] using lookupCount_append_ne k p hne rest

theorem lookupCount_append_self (k : PyVal) :
    ∀ gc : GoalCounts, gc.any (fun q => q.1 == k) = false →
      lookupCount (gc ++ [(k, 1)]) k = lookupCount gc k + 1
  | [], _ => by simp [lookupCount, List.find?]
  | q :: rest, h => by
      rw [List.any_cons] at h
      rcases Bool.or_eq_false_iff.mp h with ⟨hq, hrest⟩
      simpa [lookupCount, List.find?, hq] using lookupCount_append_self k rest hrest

theorem bumpCount_lookup (gc : GoalCounts) (k p : PyVal) :
    lookupCount (bumpCount gc k) p = lookupCount gc p + (if p = k then 1 else 0) := by
  unfold bumpCount
  by_cases hp : p = k
  · subst hp
    split
    · rename_i hany
      simpa using lookupCount_map_self p gc hany
    · rename_i hany
      simpa using lookupCount_append_self p gc (Bool.eq_false_iff.mpr hany)
  · split
    · simpa [hp] using lookupCount_map_ne k p hp gc
    · simpa [hp] using lookupCount_append_ne k p hp gc

theorem scanEvents_lookup :
    ∀ (evs : List PyVal) (gc gc' : GoalCounts), scanEvents gc evs = .ok gc' →
      ∀ p, lookupCount gc' p = lookupCount gc p + evs.countP (isGoalEventOf p)
  | [], gc, gc', h, p => by
      simp only [scanEvents] at h
      cases h
      simp
  | e :: es, gc, gc', h, p => by
      rw [List.countP_cons]
      cases e with
      | dict kvs =>
          simp only [scanEvents] at h
          by_cases hg : (PyVal.beq (pyGet kvs "type") (.str "goal") &&
              pyTruthy (pyGet kvs "player_id")) = true
          · rw [if_pos hg] at h
            have hstep := scanEvents_lookup es _ gc' h p
            rw [hstep, bumpCount_lookup]
            have hq : isGoalEventOf p (.dict kvs) = (pyGet kvs "player_id" == p) := by
              simp [isGoalEventOf, isGoalEvent, eventPlayer, hg]
            rw [hq]
            by_cases hp : p = pyGet kvs "player_id"
            · subst hp
              simp
              omega
            · have hb : (pyGet kvs "player_id" == p) = false := by
                rw [beq_eq_false_iff_ne]
                exact fun e => hp e.symm
              simp [hb, hp]
          · rw [if_neg hg] at h
            have hstep := scanEvents_lookup es gc gc' h p
            have hq : isGoalEventOf p (.dict kvs) = false := by
              simp only [isGoalEventOf, isGoalEvent]
              rw [Bool.and_eq_false_iff]
              left
              simpa using hg
            rw [hstep, hq]
            simp
      | none => exact absurd h (by simp [scanEvents])
      | int n => exact absurd h (by simp [scanEvents])
      | str s => exact absurd h (by simp [scanEvents])
      | list xs => exact absurd h (by simp [scanEvents])

theorem scorersLoop_lookup :
    ∀ (ms : List Doc) (gc gc' : GoalCounts), scorersLoop gc ms = .ok gc' →
      ∀ p, lookupCount gc' p = lookupCount gc p + goalsScored p ms
  | [], gc, gc', h, p => by
      simp only [scorersLoop] at h
      cases h
      simp [goalsScored]
  | m :: ms, gc, gc', h, p => by
      simp only [scorersLoop] at h
      split at h
      · exact absurd h (by simp)
      · rename_i evs hiter
        split at h
        · exact absurd h (by simp)
        · rename_i gc2 hscan
          have hevs : eventsOf m = evs := by
            simp [eventsOf, hiter, Except.toOption]
          have h1 := scanEvents_lookup evs gc gc2 hscan p
          have h2 := scorersLoop_lookup ms gc2 gc' h p
          simp only [goalsScored, List.map_cons, List.sum_cons, hevs]
          rw [h2, h1]
          simp only [goalsScored]
          omega

theorem scanEvents_no_goals :
    ∀ (evs : List PyVal) (gc gc' : GoalCounts), scanEvents gc evs = .ok gc' →
      evs.countP isGoalEvent = 0 → gc' = gc
  | [], gc, gc', h, _ => by
      simp only [scanEvents] at h
      cases h
      rfl
  | e :: es, gc, gc', h, hcount => by
      rw [List.countP_cons] at hcount
      cases e with
      | dict kvs =>
          simp only [scanEvents] at h
          by_cases hg : (PyVal.beq (pyGet kvs "type") (.str "goal") &&
              pyTruthy (pyGet kvs "player_id")) = true
          · have hge : isGoalEvent (.dict kvs) = true := by simpa [isGoalEvent] using hg
            rw [hge] at hcount
            simp at hcount
          · rw [if_neg hg] at h
            exact scanEvents_no_goals es gc gc' h (by omega)
      | none => exact absurd h (by simp [scanEvents])
      | int n => exact absurd h (by simp [scanEvents])
      | str s => exact absurd h (by simp [scanEvents])
      | list xs => exact absurd h (by simp [scanEvents])

theorem scorersLoop_no_goals :
    ∀ (ms : List Doc) (gc gc' : GoalCounts), scorersLoop gc ms = .ok gc' →
      totalGoals ms = 0 → gc' = gc
  | [], gc, gc', h, _ => by
      simp only [scorersLoop] at h
      cases h
      rfl
  | m :: ms, gc, gc', h, hq => by
      simp only [scorersLoop] at h
      split at h
      · exact absurd h (by simp)
      · rename_i evs hiter
        split at h
        · exact absurd h (by simp)
        · rename_i gc2 hscan
          have hevs : eventsOf m = evs := by
            simp [eventsOf, hiter, Except.toOption]
          simp only [totalGoals, List.map_cons, List.sum_cons, hevs] at hq
          have h1 : gc2 = gc := scanEvents_no_goals evs gc gc2 hscan (by omega)
          rw [h1] at h
          exact scorersLoop_no_goals ms gc gc' h (by simp only [totalGoals]; omega)

/-- C6: the leaderboard counter counts exactly the qualifying events
(type `"goal"`, non-empty `player_id`), one increment per event, per
player; and when the scoped matches contain no qualifying event the
handler returns the empty leaderboard for EVERY player store, i.e.
without any player lookup. -/
theorem top_scorers_counts (ms : List Doc) (gc : GoalCounts) (limit : Int)
    (pf : List PyVal → List (PyVal × Doc))
    (hok : scorersLoop [] ms = .ok gc) :
    (∀ p, lookupCount gc p = goalsScored p ms) ∧
    (totalGoals ms = 0 → top_scorers limit ms pf = .ok (.dict [("leaders", .list [])])) := by
  constructor
  · intro p
    simpa [lookupCount] using scorersLoop_lookup ms [] gc hok p
  · intro hq
    have hgc : gc = [] := scorersLoop_no_goals ms [] gc hok hq
    subst hgc
    simp [top_scorers, hok]

theorem top_scorers_counts_witness :
    scorersLoop [] [[("events", PyVal.list [])], exM1] = .ok [] ∧
    ((∀ p, lookupCount [] p = goalsScored p [[("events", PyVal.list [])], exM1]) ∧
      (totalGoals [[("events", PyVal.list [])], exM1] = 0 →
        top_scorers 20 [[("events", PyVal.list [])], exM1] (fun _ => []) =
          .ok (.dict [("leaders", .list [])]))) :=
  ⟨by decide,
    top_scorers_counts [[("events", PyVal.list [])], exM1] [] 20 (fun _ => []) (by decide)⟩

/-- A match with a missing home team id and a well-formed score: both
loops must skip it. -/
def exSkipMatch : Doc := [("away_team_id", .str "B"), ("score", .str "1-0")]

/-- A match with BOTH team ids missing and a score on which
`parse_score` raises: because the source parses the score before the
missing-id check, this match is not silently skipped. -/
def exBadSkipMatch : Doc :=
  [("score", .dict [("fulltime", .dict [("home", .str "x"), ("away", .int 0)])])]

/-- C7: a match missing a team id is skipped by the standings builder
and the streak analyzer while the remaining matches are fully processed
(first two conjuncts) — but NOT always without error: the source calls
`parse_score` before the missing-id check, so a skippable match whose
score makes extraction raise aborts both computations with `ValueError`
(last two conjuncts), contradicting the claimed silent skip. -/
theorem missing_team_skip_check :
    league_tableRows [exSkipMatch, exM1, exM2] = league_tableRows [exM1, exM2] ∧
    streaks (some "win") [exSkipMatch, exM1, exM2] = streaks (some "win") [exM1, exM2] ∧
    league_tableRows [exBadSkipMatch] = .error PyExc.valueError ∧
    streaks (some "clean_sheet") [exBadSkipMatch] = .exc PyExc.valueError := by
  refine ⟨by decide, by decide, by decide, by decide⟩

/-- C8 counterexample: with a perfectly valid `type` the streaks
endpoint does not always return the `(type, streaks)` payload: on a
match whose score makes extraction raise it propagates `ValueError`
instead, so the claim's "for a valid type it returns
`(type, streaks)`" part fails as stated. -/
theorem streaks_validation_counterexample :
    streaks (some "win") [exBadMatch] = .exc PyExc.valueError := by
  decide

/-- C8 (amended): the streaks operation returns the 422
`VALIDATION_ERROR` iff `type` is not one of win/loss/clean_sheet, and
on an invalid type no computation is attempted — the same error is
returned whatever the match set.  For a valid type it never returns a
422, and — provided score extraction succeeds on every scoped match —
it returns the `(type, streaks:[(team_id, streak)])` payload. -/
theorem streaks_validation (tbad tgood : Option String) (ms1 ms2 : List Doc)
    (tr : TeamResults)
    (hbad : ¬(tbad = some "win" ∨ tbad = some "loss" ∨ tbad = some "clean_sheet"))
    (hgood : tgood = some "win" ∨ tgood = some "loss" ∨ tgood = some "clean_sheet")
    (hloop : streaksLoop (tgood.getD "") [] ms2 = .ok tr) :
    streaks tbad ms1 = .err "VALIDATION_ERROR" "type must be win, loss, or clean_sheet" 422 ∧
    (∀ c msg stat, streaks tgood ms2 ≠ .err c msg stat) ∧
    (∃ L : List PyVal,
      streaks tgood ms2 =
        .ok (.dict [("type", .str (tgood.getD "")), ("streaks", .list L)]) ∧
      ∀ e ∈ L, ∃ tid : PyVal, ∃ n : Nat, e = .dict [("team_id", tid), ("streak", .int n)]) := by
  refine ⟨?_, ?_, ?_⟩
  · unfold streaks
    rw [if_neg hbad]
  · intro c msg stat
    simp [streaks, if_pos hgood, hloop]
  · refine ⟨((tr.map (fun p => (p.1, longest_streak p.2
        (if tgood.getD "" = "win" then "W"
         else if tgood.getD "" = "loss" then "L" else "C")))).insertionSort
          streakGe).map
        (fun p => .dict [("team_id", p.1), ("streak", .int (p.2 : Int))]),
      by simp [streaks, if_pos hgood, hloop], ?_⟩
    intro e he
    rcases List.mem_map.mp he with ⟨p, _, rfl⟩
    exact ⟨p.1, p.2, rfl⟩

theorem streaks_validation_witness :
    (¬((Option.none : Option String) = some "win" ∨
        (Option.none : Option String) = some "loss" ∨
        (Option.none : Option String) = some "clean_sheet")) ∧
    (some "win" = some "win" ∨ some "win" = some "loss" ∨
      some "win" = some "clean_sheet") ∧
    streaksLoop ((some "win").getD "") [] [exM1] =
      .ok [(.str "TeamX", ["W"]), (.str "TeamY", ["L"])] ∧
    (streaks Option.none [exM1] =
        .err "VALIDATION_ERROR" "type must be win, loss, or clean_sheet" 422 ∧
      (∀ c msg stat, streaks (some "win") [exM1] ≠ .err c msg stat) ∧
      (∃ L : List PyVal,
        streaks (some "win") [exM1] =
          .ok (.dict [("type", .str ((some "win").getD "")), ("streaks", .list L)]) ∧
        ∀ e ∈ L, ∃ tid : PyVal, ∃ n : Nat,
          e = .dict [("team_id", tid), ("streak", .int n)])) :=
  ⟨by decide, by decide, by decide,
    streaks_validation Option.none (some "win") [exM1] [exM1]
      [(.str "TeamX", ["W"]), (.str "TeamY", ["L"])]
      (by decide) (by decide) (by decide)⟩

/-- The spec's wording of the head-to-head selection: the (home, away)
pair equals either ordering of the two teams. -/
def h2hSpecPred (a b : String) (d : Doc) : Prop :=
  (pyGet d "home_team_id", pyGet d "away_team_id") = (.str a, .str b) ∨
  (pyGet d "home_team_id", pyGet d "away_team_id") = (.str b, .str a)

/-- C9: for mandatory (non-empty) team identifiers the head-to-head
handler returns exactly the matches selected by the either-ordering
pair query — the code's `$or` filter coincides with the spec's pair
predicate — sorted descending by date, truncated to the first `limit`,
each projected by `serialize_match` to exactly the seven public fields. -/
theorem head_to_head_spec (a b : String) (docs : List Doc) (limit : Nat) (d : Doc)
    (ha : a ≠ "") (hb : b ≠ "") :
    head_to_head (some a) (some b) limit docs =
      .ok (.dict [("team_a", .str a), ("team_b", .str b),
        ("matches", .list ((mongoH2h docs a b limit).map serialize_match))]) ∧
    (h2hQuery a b d = true ↔ h2hSpecPred a b d) ∧
    (mongoH2h docs a b limit).length = min limit (docs.countP (h2hQuery a b)) ∧
    List.Pairwise (fun x y => dateKeyInt y ≤ dateKeyInt x) (mongoH2h docs a b limit) ∧
    (∀ x ∈ mongoH2h docs a b limit, x ∈ docs ∧ h2hQuery a b x = true) ∧
    (∃ kvs : List (String × PyVal), serialize_match d = .dict kvs ∧
      kvs.map Prod.fst =
        ["_id", "date", "competition_id", "season_id",
         "home_team_id", "away_team_id", "score"]) := by
  have hba : ((some a).getD "" == "") = false := by simpa using ha
  have hbb : ((some b).getD "" == "") = false := by simpa using hb
  refine ⟨?_, ?_, ?_, ?_, ?_, ⟨_, rfl, rfl⟩⟩
  · simp only [head_to_head, Option.getD_some] at *
    rw [if_neg (by simp [hba, hbb])]
  · simp [h2hQuery, h2hSpecPred, Prod.ext_iff]
  · unfold mongoH2h
    rw [List.length_take,
      (List.perm_insertionSort dateGe (docs.filter (h2hQuery a b))).length_eq,
      List.countP_eq_length_filter]
  · unfold mongoH2h
    exact ((List.sorted_insertionSort dateGe (docs.filter (h2hQuery a b))).sublist
      (List.take_sublist _ _))
  · intro x hx
    unfold mongoH2h at hx
    have hx1 : x ∈ List.insertionSort dateGe (docs.filter (h2hQuery a b)) :=
      (List.take_sublist _ _).subset hx
    have hx2 : x ∈ docs.filter (h2hQuery a b) :=
      (List.perm_insertionSort dateGe _).mem_iff.mp hx1
    exact ⟨(List.mem_filter.mp hx2).1, (List.mem_filter.mp hx2).2⟩

/-- A sample head-to-head match document. -/
def exH1 : Doc :=
  [("_id", .str "m1"), ("home_team_id", .str "A"), ("away_team_id", .str "B"),
   ("date", .int 5), ("score", .str "1-0")]

theorem head_to_head_spec_witness :
    ("A" : String) ≠ "" ∧ ("B" : String) ≠ "" ∧
    (head_to_head (some "A") (some "B") 20 [exH1] =
        .ok (.dict [("team_a", .str "A"), ("team_b", .str "B"),
          ("matches", .list ((mongoH2h [exH1] "A" "B" 20).map serialize_match))]) ∧
      (h2hQuery "A" "B" exH1 = true ↔ h2hSpecPred "A" "B" exH1) ∧
      (mongoH2h [exH1] "A" "B" 20).length =
        min 20 (List.countP (h2hQuery "A" "B") [exH1]) ∧
      List.Pairwise (fun x y => dateKeyInt y ≤ dateKeyInt x)
        (mongoH2h [exH1] "A" "B" 20) ∧
      (∀ x ∈ mongoH2h [exH1] "A" "B" 20, x ∈ [exH1] ∧ h2hQuery "A" "B" x = true) ∧
      (∃ kvs : List (String × PyVal), serialize_match exH1 = .dict kvs ∧
        kvs.map Prod.fst =
          ["_id", "date", "competition_id", "season_id",
           "home_team_id", "away_team_id", "score"])) :=
  ⟨by decide, by decide,
    head_to_head_spec "A" "B" [exH1] 20 exH1 (by decide) (by decide)⟩

example : parse_score PyVal.none = .ok (0, 0) := by decide
example : parse_score (.str "2-1") = .ok (2, 1) := by decide
example : parse_score (.dict [("fulltime", .str "bad")]) = .ok (0, 0) := by decide
example :
    parse_score (.dict [("fulltime", .dict [("home", .int 3), ("away", .str "x")])]) =
      .error .valueError := by decide
example : parse_score (.dict [("home", .int 3), ("away", .int 1)]) = .ok (0, 0) := by decide
example : parse_score (.dict [("fulltime", .dict [("home", .int 3), ("away", .int 1)])]) =
    .ok (3, 1) := by decide
example : longest_streak ["C", "N", "N"] "C" = 1 := by decide

end Goalline
